import Mathlib

/-!
Verification of the request-processing core of the telegram-wg-bot repository:
the sliding-window rate limiter (`src/bot/middlewares/simple_rate_limit.py`,
`src/bot/middlewares/enhanced_rate_limit.py`), the progressive-penalty
limiter, the authorization gates (`auth.py`, `allow_only.py`), the bounded
retry wrappers (`src/bot/utils/telegram_utils.py`, `src/bot/utils/safe_send.py`),
the logging/audit middleware and global error handler, and the
database-backed rate limiter (`rate_limit.py`).

Timestamps are modelled as rationals (the code uses `time.monotonic()` floats,
all arithmetic involved is exact), identities as integers.
-/

/-! ## Sliding-window limiter

`RateLimit.__call__` in `simple_rate_limit.py` and `FastRateLimit.__call__`
in `enhanced_rate_limit.py` share the same algorithm: prefix-trim the
per-user timestamp list with `while arr and now - arr[0] > 60: arr.pop(0)`,
deny when `len(arr) >= limit`, otherwise append `now` and admit. -/

/-- The `while arr and now - arr[0] > 60: arr.pop(0)` prefix trim. -/
def pruneOld (now : ℚ) : List ℚ → List ℚ
  | [] => []
  | t :: rest => if 60 < now - t then pruneOld now rest else t :: rest

/-- One call of `RateLimit.__call__` / `FastRateLimit.__call__` for a single
user bucket: returns whether the event is admitted together with the bucket
contents after the call. -/
def rateLimitCall (limit : ℕ) (now : ℚ) (arr : List ℚ) : Bool × List ℚ :=
  let arr2 := pruneOld now arr
  if limit ≤ arr2.length then (false, arr2) else (true, arr2 ++ [now])

/-- Iterate `rateLimitCall` over a chronological sequence of event
timestamps, collecting the admission decisions and the final bucket. -/
def runRateLimit (limit : ℕ) (arr : List ℚ) : List ℚ → List Bool × List ℚ
  | [] => ([], arr)
  | t :: ts =>
    let r := rateLimitCall limit t arr
    let rest := runRateLimit limit r.2 ts
    (r.1 :: rest.1, rest.2)

theorem pruneOld_of_head_recent (now a : ℚ) (as : List ℚ) (h : now - a ≤ 60) :
    pruneOld now (a :: as) = a :: as := by
  unfold pruneOld
  rw [if_neg (not_lt.mpr h)]

theorem pruneOld_length_le (now : ℚ) (l : List ℚ) :
    (pruneOld now l).length ≤ l.length := by
  induction l with
  | nil => exact Nat.le_refl _
  | cons a as ih =>
    unfold pruneOld
    split
    · exact Nat.le_trans ih (Nat.le_succ _)
    · exact Nat.le_refl _

theorem runRateLimit_all_true (limit : ℕ) :
    ∀ (ts arr : List ℚ),
      arr.length + ts.length ≤ limit →
      (∀ a ∈ arr, ∀ t ∈ ts, t - a ≤ 60) →
      (∀ x ∈ ts, ∀ y ∈ ts, y - x ≤ 60) →
      runRateLimit limit arr ts = (List.replicate ts.length true, arr ++ ts) := by
  intro ts
  induction ts with
  | nil =>
    intro arr _ _ _
    simp [runRateLimit]
  | cons t ts ih =>
    intro arr hlen hcross hpair
    simp only [List.length_cons] at hlen
    have hstep : rateLimitCall limit t arr = (true, arr ++ [t]) := by
      have hpr : pruneOld t arr = arr := by
        cases arr with
        | nil => rfl
        | cons a as =>
          exact pruneOld_of_head_recent t a as
            (hcross a (List.mem_cons_self a as) t (List.mem_cons_self t ts))
      have hlt : arr.length < limit := by omega
      unfold rateLimitCall
      rw [hpr, if_neg (not_le.mpr hlt)]
    have hrest : runRateLimit limit (arr ++ [t]) ts =
        (List.replicate ts.length true, (arr ++ [t]) ++ ts) := by
      apply ih
      · simp only [List.length_append, List.length_singleton]
        omega
      · intro a ha t' ht'
        rcases List.mem_append.mp ha with h1 | h1
        · exact hcross a h1 t' (List.mem_cons_of_mem _ ht')
        · have : a = t := List.mem_singleton.mp h1
          subst this
          exact hpair a (List.mem_cons_self a ts) t' (List.mem_cons_of_mem _ ht')
      · intro x hx y hy
        exact hpair x (List.mem_cons_of_mem _ hx) y (List.mem_cons_of_mem _ hy)
    unfold runRateLimit
    simp only [hstep, hrest]
    simp [List.replicate_succ, List.append_assoc]

/-- C1 (sliding-window admission): starting from a fresh bucket, a
chronologically ordered list `h :: rest` of exactly `limit` timestamps, all
within 59 seconds of the first, is admitted in full and stored; a further
event at `td` inside the trailing 60-second window is denied with the stored
sequence unchanged; an event at `h + 61`, after the earliest timestamp has
aged out, is admitted again. -/
theorem C1_sliding_window_admission (limit : ℕ) (h : ℚ) (rest : List ℚ)
    (hsorted : (h :: rest).Sorted (· ≤ ·))
    (hlen : (h :: rest).length = limit)
    (hspan : ∀ t ∈ h :: rest, t - h ≤ 59)
    (td : ℚ) (hlate : ∀ t ∈ h :: rest, t ≤ td) (hin : td - h ≤ 60) :
    runRateLimit limit [] (h :: rest) = (List.replicate limit true, h :: rest) ∧
    rateLimitCall limit td (h :: rest) = (false, h :: rest) ∧
    (rateLimitCall limit (h + 61) (h :: rest)).1 = true := by
  have hmin : ∀ x ∈ h :: rest, h ≤ x := by
    intro x hx
    rcases List.mem_cons.mp hx with h1 | h1
    · exact le_of_eq h1.symm
    · exact List.rel_of_sorted_cons hsorted x h1
  have hpair : ∀ x ∈ h :: rest, ∀ y ∈ h :: rest, y - x ≤ 60 := by
    intro x hx y hy
    have h1 := hmin x hx
    have h2 := hspan y hy
    linarith
  refine ⟨?_, ?_, ?_⟩
  · have := runRateLimit_all_true limit (h :: rest) []
      (by simpa using Nat.le_of_eq hlen)
      (by intro a ha; simp at ha)
      hpair
    simpa [hlen] using this
  · have hpr : pruneOld td (h :: rest) = h :: rest :=
      pruneOld_of_head_recent td h rest hin
    have hl : limit ≤ (h :: rest).length := Nat.le_of_eq hlen.symm
    unfold rateLimitCall
    rw [hpr, if_pos hl]
  · have h61 : pruneOld (h + 61) (h :: rest) = pruneOld (h + 61) rest := by
      have hgt : (60 : ℚ) < h + 61 - h := by linarith
      simp only [pruneOld, if_pos hgt]
    have hlt : (pruneOld (h + 61) rest).length < limit := by
      have h1 := pruneOld_length_le (h + 61) rest
      have h2 : rest.length + 1 = limit := by simpa using hlen
      omega
    unfold rateLimitCall
    rw [h61, if_neg (not_le.mpr hlt)]

/-- Witness for C1: limit 2, events at 0 and 59 admitted, a call at 60
denied leaving the bucket unchanged, a call at 0 + 61 admitted again. -/
theorem C1_witness :
    runRateLimit 2 [] [0, 59] = (List.replicate 2 true, [0, 59]) ∧
    rateLimitCall 2 60 [0, 59] = (false, [0, 59]) ∧
    (rateLimitCall 2 (0 + 61) [0, 59]).1 = true :=
  C1_sliding_window_admission 2 0 [59]
    (by norm_num [List.sorted_cons])
    rfl
    (by
      intro t ht
      simp only [List.mem_cons, List.not_mem_nil, or_false] at ht
      rcases ht with rfl | rfl <;> norm_num)
    60
    (by
      intro t ht
      simp only [List.mem_cons, List.not_mem_nil, or_false] at ht
      rcases ht with rfl | rfl <;> norm_num)
    (by norm_num)

/-! ## Progressive-penalty limiter

`ProgressiveRateLimit.__call__` in `enhanced_rate_limit.py`: per-user record
`{'commands': [...], 'violations': 0, 'last_violation': 0, 'penalty_until': 0}`.
If `now < penalty_until` the call is denied immediately with the remaining
penalty and the record untouched; otherwise the window is pruned by list
comprehension (`now - t <= 60`), the effective limit is
`max(1, base_limit - violations)` for offenders, a violation increments the
counter and sets `penalty_until = now + min(300, 30 * 2**(violations-1))`,
and an admitted command is appended, followed by the lazy 24-hour reset. -/

/-- Per-user state of `ProgressiveRateLimit` (`self.buckets[user_id]`). -/
structure Bucket where
  commands : List ℚ
  violations : ℕ
  last_violation : ℚ
  penalty_until : ℚ
deriving DecidableEq, Repr

/-- The fresh bucket installed by `setdefault`. -/
def Bucket.init : Bucket := ⟨[], 0, 0, 0⟩

/-- Outcome of one progressive-limiter call: the handler runs, or the event
is denied and the user is told to retry after the given number of seconds. -/
inductive PResult where
  | allowed : PResult
  | denied (retry_after : ℚ) : PResult
deriving DecidableEq, Repr

/-- The list-comprehension prune `[t for t in commands if now - t <= 60]`. -/
def pruneWindow (now : ℚ) (commands : List ℚ) : List ℚ :=
  commands.filter (fun t => now - t ≤ 60)

/-- The dynamic limit: `max(1, base_limit - violations)` for users with a
violation history, `base_limit` otherwise. -/
def effLimit (base_limit violations : ℕ) : ℕ :=
  if 0 < violations then max 1 (base_limit - violations) else base_limit

/-- One call of `ProgressiveRateLimit.__call__` for a single user bucket. -/
def progressiveCall (base_limit : ℕ) (now : ℚ) (b : Bucket) : PResult × Bucket :=
  if now < b.penalty_until then
    (.denied (b.penalty_until - now), b)
  else
    let commands := pruneWindow now b.commands
    let limit := effLimit base_limit b.violations
    if limit ≤ commands.length then
      let violations := b.violations + 1
      let penalty : ℚ := min 300 (30 * 2 ^ (violations - 1))
      (.denied penalty,
        { commands := commands, violations := violations,
          last_violation := now, penalty_until := now + penalty })
    else
      let commands2 := commands ++ [now]
      if 0 < b.violations ∧ 86400 < now - b.last_violation then
        (.allowed,
          { commands := commands2, violations := 0,
            last_violation := b.last_violation, penalty_until := b.penalty_until })
      else
        (.allowed,
          { commands := commands2, violations := b.violations,
            last_violation := b.last_violation, penalty_until := b.penalty_until })

/-- Iterate `progressiveCall` over a chronological sequence of timestamps. -/
def runProgressive (base_limit : ℕ) (b : Bucket) : List ℚ → List PResult × Bucket
  | [] => ([], b)
  | t :: ts =>
    let r := progressiveCall base_limit t b
    let rest := runProgressive base_limit r.2 ts
    (r.1 :: rest.1, rest.2)

/-- C3 (penalty-phase frame property): a call arriving while
`now < penalty_until` is denied with `retry_after = penalty_until - now` and
the whole bucket is returned unchanged: no pruning, no append, and
`violations`, `last_violation`, `penalty_until` keep their prior values. -/
theorem C3_penalty_frame (base_limit : ℕ) (now : ℚ) (b : Bucket)
    (h : now < b.penalty_until) :
    progressiveCall base_limit now b = (.denied (b.penalty_until - now), b) := by
  unfold progressiveCall
  rw [if_pos h]

/-- Witness for C3 at a concrete bucket still under penalty. -/
theorem C3_witness :
    progressiveCall 10 0 ⟨[], 0, 0, 5⟩ = (.denied 5, ⟨[], 0, 0, 5⟩) := by
  have h := C3_penalty_frame 10 0 ⟨[], 0, 0, 5⟩ (by norm_num)
  simpa using h

/-- C2 (progressive escalation): whenever a violation is recorded (the call
is past any penalty and the pruned window has reached the effective limit),
the new state has `violations` incremented, `last_violation = now` and
`penalty_until = now + min 300 (30 * 2 ^ old_violations)`; in particular the
first violation sets the penalty 30 seconds ahead, the second 60 seconds,
and the sixth is clamped to 300 seconds (not 960). -/
theorem C2_progressive_escalation (base_limit : ℕ) (now : ℚ) (b : Bucket)
    (h1 : b.penalty_until ≤ now)
    (h2 : effLimit base_limit b.violations ≤ (pruneWindow now b.commands).length) :
    (progressiveCall base_limit now b).1 = .denied (min 300 (30 * 2 ^ b.violations)) ∧
    (progressiveCall base_limit now b).2.violations = b.violations + 1 ∧
    (progressiveCall base_limit now b).2.last_violation = now ∧
    (progressiveCall base_limit now b).2.penalty_until
      = now + min 300 (30 * 2 ^ b.violations) ∧
    (b.violations = 0 → (progressiveCall base_limit now b).2.penalty_until = now + 30) ∧
    (b.violations = 1 → (progressiveCall base_limit now b).2.penalty_until = now + 60) ∧
    (b.violations = 5 → (progressiveCall base_limit now b).2.penalty_until = now + 300) := by
  have hkey : progressiveCall base_limit now b =
      (.denied (min 300 (30 * 2 ^ b.violations)),
        { commands := pruneWindow now b.commands, violations := b.violations + 1,
          last_violation := now,
          penalty_until := now + min 300 (30 * 2 ^ b.violations) }) := by
    simp only [progressiveCall]
    rw [if_neg (not_lt.mpr h1), if_pos h2]
    simp [Nat.add_sub_cancel]
  rw [hkey]
  refine ⟨rfl, rfl, rfl, rfl, ?_, ?_, ?_⟩
  · intro hv; rw [hv]; norm_num
  · intro hv; rw [hv]; norm_num [min_def]
  · intro hv; rw [hv]; norm_num [min_def]

/-- Witness for C2: base limit 3, three commands already in the window, the
call at time 12 records the first violation with a 30-second penalty. -/
theorem C2_witness :
    (progressiveCall 3 12 ⟨[10, 11, 12], 0, 0, 0⟩).1 = .denied 30 ∧
    (progressiveCall 3 12 ⟨[10, 11, 12], 0, 0, 0⟩).2.violations = 1 ∧
    (progressiveCall 3 12 ⟨[10, 11, 12], 0, 0, 0⟩).2.penalty_until = 12 + 30 := by
  have h := C2_progressive_escalation 3 12 ⟨[10, 11, 12], 0, 0, 0⟩
    (by norm_num) (by norm_num [effLimit, pruneWindow, List.filter_cons])
  have h1 := h.1
  norm_num [min_def] at h1
  exact ⟨h1, h.2.1, h.2.2.2.2.1 rfl⟩

/-- C4 counterexample: base limit 3; commands at 0, 1, 2 are admitted,
calls at 3 and 40 record violations (the second at T = 40), a call at
86430 is admitted (no violation afterwards, and the 24-hour reset does not
fire because only 86390 seconds have elapsed). The attempt at
86441 = T + 86401 is then still evaluated against the reduced limit
`max(1, 3 - 2) = 1`, so it is denied (a third violation), whereas with
violations counted as 0 — what the claim states — the same call would have
been admitted. -/
theorem C4_clean_reset_counterexample :
    (runProgressive 3 Bucket.init [0, 1, 2, 3, 40, 86430]).1 =
      [.allowed, .allowed, .allowed, .denied 30, .denied 60, .allowed] ∧
    (runProgressive 3 Bucket.init [0, 1, 2, 3, 40, 86430]).2 =
      ⟨[86430], 2, 40, 100⟩ ∧
    (86441 : ℚ) - 40 = 86401 ∧
    (progressiveCall 3 86441 ⟨[86430], 2, 40, 100⟩).1 = .denied 120 ∧
    (progressiveCall 3 86441 ⟨[86430], 0, 40, 100⟩).1 = .allowed := by
  norm_num [runProgressive, progressiveCall, effLimit, pruneWindow,
    List.filter_cons, Bucket.init, min_def]

/-- C4 as amended: with `violations > 0`, the penalty expired and more than
86400 seconds since the last violation, an attempt is still evaluated
against the reduced limit `max(1, base_limit - violations)`; only when the
attempt is admitted under that reduced limit does the lazy reset set
`violations` to 0 (so later calls see the full base limit). -/
theorem C4_clean_reset_amended (base_limit : ℕ) (now : ℚ) (b : Bucket)
    (hv : 0 < b.violations) (hp : b.penalty_until ≤ now)
    (hclean : 86400 < now - b.last_violation) :
    (effLimit base_limit b.violations ≤ (pruneWindow now b.commands).length →
      (progressiveCall base_limit now b).1 = .denied (min 300 (30 * 2 ^ b.violations)) ∧
      (progressiveCall base_limit now b).2.violations = b.violations + 1) ∧
    ((pruneWindow now b.commands).length < effLimit base_limit b.violations →
      (progressiveCall base_limit now b).1 = .allowed ∧
      (progressiveCall base_limit now b).2.violations = 0) := by
  constructor
  · intro hle
    have hkey : progressiveCall base_limit now b =
        (.denied (min 300 (30 * 2 ^ b.violations)),
          { commands := pruneWindow now b.commands, violations := b.violations + 1,
            last_violation := now,
            penalty_until := now + min 300 (30 * 2 ^ b.violations) }) := by
      simp only [progressiveCall]
      rw [if_neg (not_lt.mpr hp), if_pos hle]
      simp [Nat.add_sub_cancel]
    rw [hkey]
    exact ⟨rfl, rfl⟩
  · intro hlt
    have hkey : progressiveCall base_limit now b =
        (.allowed,
          { commands := pruneWindow now b.commands ++ [now], violations := 0,
            last_violation := b.last_violation, penalty_until := b.penalty_until }) := by
      simp only [progressiveCall]
      rw [if_neg (not_lt.mpr hp), if_neg (not_le.mpr hlt), if_pos ⟨hv, hclean⟩]
    rw [hkey]
    exact ⟨rfl, rfl⟩

/-- Witness for the amended C4 at the state reached in the counterexample:
the attempt at T + 86401 is denied under the reduced limit and records a
third violation. -/
theorem C4_witness :
    (progressiveCall 3 86441 ⟨[86430], 2, 40, 100⟩).1 = .denied 120 ∧
    (progressiveCall 3 86441 ⟨[86430], 2, 40, 100⟩).2.violations = 3 := by
  have h := (C4_clean_reset_amended 3 86441 ⟨[86430], 2, 40, 100⟩
    (by norm_num) (by norm_num) (by norm_num)).1
    (by norm_num [effLimit, pruneWindow, List.filter_cons])
  have h1 := h.1
  have h2 := h.2
  norm_num [min_def] at h1 h2
  exact ⟨h1, h2⟩

/-! ## Authorization gates

Two divergent gates are modelled over the configured allow-list (an ordered
list of identities). `AuthMiddleware._is_authorized` in `auth.py`:
`if not telegram_id: return False; return telegram_id in ALLOWED_USERS` —
note that an empty allow-list makes this deny every identity.
`AllowOnly.__call__` in `allow_only.py`: `if ALLOWED and user_id not in
ALLOWED: deny` — an empty allow-list admits every identity.
`_get_or_create_user` in `auth.py` grants `is_admin` only to
`ALLOWED_USERS[0]`, while `allow_only.py` grants it to every member of the
allow-list, on creation (`is_admin=(ALLOWED and user_info['id'] in ALLOWED)`)
and on update (`if ALLOWED and user.telegram_id in ALLOWED: user.is_admin =
True`). -/

/-- `AuthMiddleware._is_authorized` (`auth.py`). -/
def authIsAuthorized (allowedUsers : List ℤ) (telegramId : ℤ) : Bool :=
  if telegramId = 0 then false
  else allowedUsers.contains telegramId

/-- The admission decision of `AllowOnly.__call__` (`allow_only.py`):
the handler is reached unless the allow-list is non-empty and the user is
absent from it. -/
def allowOnlyPermits (allowed : List ℤ) (userId : ℤ) : Bool :=
  if !allowed.isEmpty && !allowed.contains userId then false else true

/-- `is_admin` assigned by `AuthMiddleware._get_or_create_user` when
creating a profile: true iff the identity is the first entry of the
configured allow-list. -/
def authCreateIsAdmin (allowedUsers : List ℤ) (userId : ℤ) : Bool :=
  match allowedUsers with
  | [] => false
  | a :: _ => userId = a

/-- `is_admin` after the update branch of `AuthMiddleware._get_or_create_user`:
promoted to true only for the first entry of the allow-list, otherwise the
stored flag is kept. -/
def authUpdateIsAdmin (allowedUsers : List ℤ) (userId : ℤ) (old : Bool) : Bool :=
  match allowedUsers with
  | [] => old
  | a :: _ => if userId = a then true else old

/-- `is_admin` assigned by `AllowOnly._get_or_create_user` when creating a
profile: true iff the allow-list is non-empty and contains the identity. -/
def allowOnlyCreateIsAdmin (allowed : List ℤ) (userId : ℤ) : Bool :=
  !allowed.isEmpty && allowed.contains userId

/-- `is_admin` after the update branch of `AllowOnly._get_or_create_user`:
promoted to true for any member of a non-empty allow-list. -/
def allowOnlyUpdateIsAdmin (allowed : List ℤ) (userId : ℤ) (old : Bool) : Bool :=
  if !allowed.isEmpty && allowed.contains userId then true else old

/-- C5 counterexample: with an empty allow-list, `AuthMiddleware` denies
identity 5 (`_is_authorized` returns false), contradicting the claim that an
empty allow-list admits every identity through the authorization gate. -/
theorem C5_allow_list_counterexample :
    authIsAuthorized [] 5 = false ∧ allowOnlyPermits [] 5 = true := by
  constructor <;> rfl

/-- C5 as amended: an identity absent from a non-empty allow-list is denied
by both gates; with an empty allow-list, `AllowOnly` admits every identity
(open mode) while `AuthMiddleware._is_authorized` denies every identity
(fail closed). -/
theorem C5_allow_list_amended (allowed : List ℤ) (userId : ℤ)
    (hne : allowed ≠ []) (habs : allowed.contains userId = false) :
    authIsAuthorized allowed userId = false ∧
    allowOnlyPermits allowed userId = false ∧
    (∀ j : ℤ, allowOnlyPermits [] j = true) ∧
    (∀ j : ℤ, authIsAuthorized [] j = false) := by
  refine ⟨?_, ?_, ?_, ?_⟩
  · unfold authIsAuthorized
    split
    · rfl
    · exact habs
  · have h1 : allowed.isEmpty = false := by
      cases allowed with
      | nil => exact absurd rfl hne
      | cons a as => rfl
    unfold allowOnlyPermits
    rw [h1, habs]
    rfl
  · intro j; rfl
  · intro j
    unfold authIsAuthorized
    split
    · rfl
    · rfl

/-- Witness for the amended C5: identity 5 against the allow-list [1, 2]. -/
theorem C5_witness :
    authIsAuthorized [1, 2] 5 = false ∧
    allowOnlyPermits [1, 2] 5 = false ∧
    (∀ j : ℤ, allowOnlyPermits [] j = true) ∧
    (∀ j : ℤ, authIsAuthorized [] j = false) :=
  C5_allow_list_amended [1, 2] 5 (by simp) (by decide)

/-- C6 counterexample: with allow-list [1, 2] (admin slot 1), `AllowOnly`
creates the profile of identity 2 with `is_admin = true`, and promotes an
existing non-admin profile of identity 2 to admin, although 2 is not the
first entry. -/
theorem C6_admin_counterexample :
    allowOnlyCreateIsAdmin [1, 2] 2 = true ∧
    allowOnlyUpdateIsAdmin [1, 2] 2 false = true ∧
    (2 : ℤ) ≠ 1 := by
  refine ⟨by decide, by decide, by decide⟩

/-- C6 as amended: `AuthMiddleware` assigns `is_admin = true` on creation
only to the first entry of the allow-list and never promotes any other
identity on update, while `AllowOnly` assigns `is_admin = true` to every
member of the allow-list, on creation and on update. -/
theorem C6_admin_positional_amended (a userId : ℤ) (rest : List ℤ) (old : Bool)
    (hne : userId ≠ a) :
    authCreateIsAdmin (a :: rest) userId = false ∧
    authUpdateIsAdmin (a :: rest) userId old = old ∧
    authCreateIsAdmin (a :: rest) a = true ∧
    ((a :: rest).contains userId = true →
      allowOnlyCreateIsAdmin (a :: rest) userId = true ∧
      allowOnlyUpdateIsAdmin (a :: rest) userId old = true) := by
  refine ⟨?_, ?_, ?_, ?_⟩
  · simp [authCreateIsAdmin, hne]
  · simp [authUpdateIsAdmin, hne]
  · simp [authCreateIsAdmin]
  · intro hmem
    have hm : userId ∈ a :: rest := by simpa using hmem
    rcases List.mem_cons.mp hm with h | h
    · exact absurd h hne
    · exact ⟨by simp [allowOnlyCreateIsAdmin, h], by simp [allowOnlyUpdateIsAdmin, h]⟩

/-- Witness for the amended C6: allow-list [1, 2], identity 2, stored flag
false. -/
theorem C6_witness :
    authCreateIsAdmin [1, 2] 2 = false ∧
    authUpdateIsAdmin [1, 2] 2 false = false ∧
    authCreateIsAdmin [1, 2] 1 = true ∧
    ([1, 2].contains (2 : ℤ) = true →
      allowOnlyCreateIsAdmin [1, 2] 2 = true ∧
      allowOnlyUpdateIsAdmin [1, 2] 2 false = true) :=
  C6_admin_positional_amended 1 2 [2] false (by decide)

/-! ## Bounded retry wrappers

`safe_telegram_call` in `telegram_utils.py` loops `for attempt in
range(max_retries)`, catching in order `TelegramRetryAfter` (sleep
`retry_after + 1`, retry), `TelegramNetworkError` (sleep and double the
delay, retry), `TelegramBadRequest` / `TelegramUnauthorizedError` /
`TelegramForbiddenError` (return `None` immediately) and `Exception`
(backoff and retry); after the loop it returns `None`. `safe_send` in
`safe_send.py` loops `for attempt in range(5)`, catching `RetryAfter`,
`TelegramNetworkError`, and `Exception` — the last clause re-raises on
`attempt == 4`.

An operation is modelled as a map from the attempt index to its outcome;
the result type `Except TgError (Option α)` distinguishes an exception
propagating to the caller (`Except.error`) from a normal return. Each model
also counts the number of invocations of the operation. -/

/-- The exception taxonomy raised by the messaging provider, as caught by
the wrappers. `other` stands for any exception outside the named classes. -/
inductive TgError where
  | retryAfter (wait : ℚ) : TgError
  | network : TgError
  | badRequest : TgError
  | unauthorized : TgError
  | forbidden : TgError
  | other : TgError
deriving DecidableEq, Repr

/-- Loop body of `safe_telegram_call`: `attempt` is the current index,
`remaining` the number of iterations left in `range(max_retries)`, `delay`
the current backoff. Returns the propagated outcome (never an error: every
branch of the `try` is caught) and the number of invocations of `op`. -/
def safeTelegramLoop {α : Type} (op : ℕ → Except TgError α)
    (maxRetries : ℕ) (maxDelay : ℚ) :
    ℕ → ℕ → ℚ → Except TgError (Option α) × ℕ
  | _, 0, _ => (.ok none, 0)
  | attempt, r + 1, delay =>
    match op attempt with
    | .ok result => (.ok (some result), 1)
    | .error (.retryAfter _) =>
      let rest := safeTelegramLoop op maxRetries maxDelay (attempt + 1) r delay
      (rest.1, rest.2 + 1)
    | .error .network =>
      let delay2 := if attempt < maxRetries - 1 then min (delay * 2) maxDelay else delay
      let rest := safeTelegramLoop op maxRetries maxDelay (attempt + 1) r delay2
      (rest.1, rest.2 + 1)
    | .error .badRequest => (.ok none, 1)
    | .error .unauthorized => (.ok none, 1)
    | .error .forbidden => (.ok none, 1)
    | .error .other =>
      let delay2 := if attempt < maxRetries - 1 then min (delay * 2) maxDelay else delay
      let rest := safeTelegramLoop op maxRetries maxDelay (attempt + 1) r delay2
      (rest.1, rest.2 + 1)

/-- `safe_telegram_call(callable, max_retries, initial_delay, max_delay)`. -/
def safeTelegramCall {α : Type} (op : ℕ → Except TgError α)
    (maxRetries : ℕ) (initialDelay maxDelay : ℚ) : Except TgError (Option α) × ℕ :=
  safeTelegramLoop op maxRetries maxDelay 0 maxRetries initialDelay

/-- Loop body of `safe_send`: the `except Exception` clause re-raises when
`attempt == 4`, otherwise it backs off and retries. -/
def safeSendLoop {α : Type} (op : ℕ → Except TgError α) :
    ℕ → ℕ → ℚ → Except TgError (Option α) × ℕ
  | _, 0, _ => (.ok none, 0)
  | attempt, r + 1, delay =>
    match op attempt with
    | .ok result => (.ok (some result), 1)
    | .error (.retryAfter _) =>
      let rest := safeSendLoop op (attempt + 1) r delay
      (rest.1, rest.2 + 1)
    | .error .network =>
      let rest := safeSendLoop op (attempt + 1) r (min (delay * 2) 30)
      (rest.1, rest.2 + 1)
    | .error e =>
      if attempt = 4 then (.error e, 1)
      else
        let rest := safeSendLoop op (attempt + 1) r (min (delay * 2) 30)
        (rest.1, rest.2 + 1)

/-- `safe_send(callable)`: `delay = 2`, `for attempt in range(5)`. -/
def safeSendCall {α : Type} (op : ℕ → Except TgError α) :
    Except TgError (Option α) × ℕ :=
  safeSendLoop op 0 5 2

/-- C7 (retry termination and attempt budget): `safe_telegram_call` with
`max_retries = 5` invokes an always-network-failing operation exactly 5
times and returns `None`; an operation failing with a permanent error (bad
request, auth failure, forbidden) on the first attempt is invoked exactly
once and `None` is returned. -/
theorem C7_retry_termination {α : Type} (op1 op2 : ℕ → Except TgError α)
    (e : TgError)
    (h1 : ∀ n, op1 n = .error .network)
    (he : e = .badRequest ∨ e = .unauthorized ∨ e = .forbidden)
    (h2 : op2 0 = .error e) :
    safeTelegramCall op1 5 2 30 = (.ok none, 5) ∧
    safeTelegramCall op2 5 2 30 = (.ok none, 1) := by
  constructor
  · simp only [safeTelegramCall, safeTelegramLoop, h1]
  · rcases he with rfl | rfl | rfl <;>
      simp only [safeTelegramCall, safeTelegramLoop, h2]

/-- Witness for C7: the constantly-network-failing operation and an
operation that raises a bad request on its first attempt. -/
theorem C7_witness :
    safeTelegramCall (fun _ => (.error .network : Except TgError ℕ)) 5 2 30
      = (.ok none, 5) ∧
    safeTelegramCall (fun _ => (.error .badRequest : Except TgError ℕ)) 5 2 30
      = (.ok none, 1) :=
  C7_retry_termination (fun _ => .error .network) (fun _ => .error .badRequest)
    .badRequest (fun _ => rfl) (Or.inl rfl) rfl

/-- C8 counterexample: `safe_send` applied to an operation that raises an
unexpected (non-rate-limit, non-network) exception on every attempt invokes
it 5 times and then re-raises the exception out of the wrapper instead of
returning `None`. -/
theorem C8_never_raises_counterexample :
    safeSendCall (fun _ => (.error .other : Except TgError ℕ)) = (.error .other, 5) := by
  rfl

/-- C8 as amended: `safe_telegram_call` never propagates an exception — for
every operation and every parameterisation its outcome is a normal return;
`safe_send` also never propagates when the operation only ever fails with
rate-limit or network errors, but re-raises an exception of any other kind
occurring on its fifth attempt. -/
theorem C8_never_raises_amended {α : Type} (op1 op2 : ℕ → Except TgError α)
    (maxRetries : ℕ) (initialDelay maxDelay : ℚ)
    (h : ∀ n, op2 n = .error .network ∨ (∃ w, op2 n = .error (.retryAfter w)) ∨
        ∃ a, op2 n = .ok a) :
    (∃ r, (safeTelegramCall op1 maxRetries initialDelay maxDelay).1 = .ok r) ∧
    (∃ r, (safeSendCall op2).1 = .ok r) := by
  constructor
  · suffices hs : ∀ (rem attempt : ℕ) (delay : ℚ),
        ∃ r, (safeTelegramLoop op1 maxRetries maxDelay attempt rem delay).1 = .ok r by
      exact hs maxRetries 0 initialDelay
    intro rem
    induction rem with
    | zero => intro attempt delay; exact ⟨none, rfl⟩
    | succ r ih =>
      intro attempt delay
      rcases hop : op1 attempt with e | a
      · rcases e with w | _ | _ | _ | _ | _
        · rcases ih (attempt + 1) delay with ⟨r2, hr2⟩
          exact ⟨r2, by simp [safeTelegramLoop, hop, hr2]⟩
        · rcases ih (attempt + 1)
            (if attempt < maxRetries - 1 then min (delay * 2) maxDelay else delay)
            with ⟨r2, hr2⟩
          exact ⟨r2, by simp [safeTelegramLoop, hop, hr2]⟩
        · exact ⟨none, by simp [safeTelegramLoop, hop]⟩
        · exact ⟨none, by simp [safeTelegramLoop, hop]⟩
        · exact ⟨none, by simp [safeTelegramLoop, hop]⟩
        · rcases ih (attempt + 1)
            (if attempt < maxRetries - 1 then min (delay * 2) maxDelay else delay)
            with ⟨r2, hr2⟩
          exact ⟨r2, by simp [safeTelegramLoop, hop, hr2]⟩
      · exact ⟨some a, by simp [safeTelegramLoop, hop]⟩
  · suffices hs : ∀ (rem attempt : ℕ) (delay : ℚ),
        ∃ r, (safeSendLoop op2 attempt rem delay).1 = .ok r by
      exact hs 5 0 2
    intro rem
    induction rem with
    | zero => intro attempt delay; exact ⟨none, rfl⟩
    | succ r ih =>
      intro attempt delay
      rcases h attempt with hn | ⟨w, hw⟩ | ⟨a, ha⟩
      · rcases ih (attempt + 1) (min (delay * 2) 30) with ⟨r2, hr2⟩
        exact ⟨r2, by simp [safeSendLoop, hn, hr2]⟩
      · rcases ih (attempt + 1) delay with ⟨r2, hr2⟩
        exact ⟨r2, by simp [safeSendLoop, hw, hr2]⟩
      · exact ⟨some a, by simp [safeSendLoop, ha]⟩

/-- Witness for the amended C8: a success on the first attempt for the
first wrapper and a constantly-network-failing operation for the second. -/
theorem C8_witness :
    (∃ r, (safeTelegramCall (fun _ => (.ok 7 : Except TgError ℕ)) 5 2 30).1 = .ok r) ∧
    (∃ r, (safeSendCall (fun _ => (.error .network : Except TgError ℕ))).1 = .ok r) :=
  C8_never_raises_amended (fun _ => .ok 7) (fun _ => .error .network) 5 2 30
    (fun _ => Or.inl rfl)

/-! ## Audit layer and global error handler

`LoggingMiddleware.__call__` in `logging.py` logs an incoming-request event,
runs the handler inside `try`, re-raises any exception (`raise` in the
`except` clause) and, in `finally`, always records exactly one
`request_completed` event whose status is `'error'` iff the handler raised.

`GlobalErrorHandler.__call__` in `error_handler.py` wraps the inner chain in
a `try` with one `except` clause per provider error class plus a catch-all
`except Exception`; each clause logs and calls a `_handle_*` helper. The
helpers for bad request, rate limit, network, other API errors and
unexpected errors each attempt exactly one user-visible message through
`_send_safe_error_message`, whose own failure is caught and only logged;
the unauthorized and forbidden helpers send nothing. No clause re-raises. -/

/-- Exception taxonomy seen by `GlobalErrorHandler.__call__`, in the order
of its `except` clauses. `unexpected` is any non-Telegram exception. -/
inductive AppError where
  | tgUnauthorized : AppError
  | tgForbidden : AppError
  | tgBadRequest : AppError
  | tgRetryAfter (wait : ℚ) : AppError
  | tgNetwork : AppError
  | tgApiOther : AppError
  | unexpected : AppError
deriving DecidableEq, Repr

/-- Status recorded in a `request_completed` audit event. -/
inductive Outcome where
  | success : Outcome
  | error : Outcome
deriving DecidableEq, Repr

/-- Structured audit events emitted by `LoggingMiddleware`. -/
inductive AuditAction where
  | incoming : AuditAction
  | completed (status : Outcome) : AuditAction
deriving DecidableEq, Repr

/-- `LoggingMiddleware.__call__` around a handler whose outcome is given:
the `finally` block records one completion event, and a handler exception is
re-raised unchanged. Returns what propagates upward and the emitted audit
events in order. -/
def loggingMiddlewareCall {α : Type} (handlerResult : Except AppError α) :
    Except AppError α × List AuditAction :=
  match handlerResult with
  | .ok a => (.ok a, [.incoming, .completed .success])
  | .error e => (.error e, [.incoming, .completed .error])

/-- `GlobalErrorHandler.__call__` around an inner chain whose outcome is
given: every exception class is caught and handled; `sendFails` says
whether the attempted user-visible reply itself fails (that failure is
swallowed by `_send_safe_error_message`). Returns the value returned to
aiogram (never an exception) and the number of user-visible messages
attempted. -/
def globalErrorHandlerCall {α : Type} (inner : Except AppError α)
    (sendFails : Bool) : Option α × ℕ :=
  match inner with
  | .ok a => (some a, 0)
  | .error .tgUnauthorized => (none, 0)
  | .error .tgForbidden => (none, 0)
  | .error .tgBadRequest => (none, 1)
  | .error (.tgRetryAfter _) => (none, 1)
  | .error .tgNetwork => (none, 1)
  | .error .tgApiOther => (none, 1)
  | .error .unexpected => (none, 1)

/-- C9 counterexample: a handler raising `TelegramForbiddenError` is
recorded with outcome error and re-raised by the audit layer, but the
outermost error handler's forbidden branch attempts zero user-visible
messages, contradicting the claimed "exactly one". -/
theorem C9_error_isolation_counterexample :
    (loggingMiddlewareCall (α := ℕ) (.error .tgForbidden)).2.count
      (.completed .error) = 1 ∧
    (globalErrorHandlerCall (α := ℕ)
      (loggingMiddlewareCall (α := ℕ) (.error .tgForbidden)).1 false).2 = 0 := by
  constructor <;> rfl

/-- C9 as amended: for every handler exception, the audit layer records
exactly one completion event with outcome error and re-raises the same
exception; the outermost error handler returns normally (no exception
propagates above it), attempts at most one user-visible message — exactly
one unless the exception is the provider-auth-failure or provider-forbidden
kind, for which none is attempted — and its outcome is unchanged when the
attempted message itself fails. -/
theorem C9_error_isolation_amended {α : Type} (e : AppError) :
    (loggingMiddlewareCall (α := α) (.error e)).1 = .error e ∧
    (loggingMiddlewareCall (α := α) (.error e)).2.count (.completed .error) = 1 ∧
    (loggingMiddlewareCall (α := α) (.error e)).2.count (.completed .success) = 0 ∧
    (∀ f : Bool, (globalErrorHandlerCall (α := α) (.error e) f).1 = none) ∧
    (∀ f : Bool, (globalErrorHandlerCall (α := α) (.error e) f).2 =
      if e = .tgUnauthorized ∨ e = .tgForbidden then 0 else 1) ∧
    (∀ f : Bool, globalErrorHandlerCall (α := α) (.error e) f =
      globalErrorHandlerCall (α := α) (.error e) true) := by
  refine ⟨rfl, ?_, ?_, ?_, ?_, ?_⟩
  · simp [loggingMiddlewareCall, List.count_cons]
  · simp [loggingMiddlewareCall, List.count_cons]
  · intro f
    rcases e with _ | _ | _ | w | _ | _ | _ <;> rfl
  · intro f
    rcases e with _ | _ | _ | w | _ | _ | _ <;> simp [globalErrorHandlerCall]
  · intro f
    rcases e with _ | _ | _ | w | _ | _ | _ <;> rfl

/-! ## Database-backed rate limiter

`RateLimitMiddleware` in `rate_limit.py` fails open twice over:
`_check_rate_limit` wraps all session work in `try ... except: return True`,
and `__call__` wraps the call to `_check_rate_limit` in its own
`try ... except` that falls through to the handler. -/

/-- A persistence failure (session failure, query or commit error). -/
inductive DbError where
  | sessionFailure : DbError
  | queryError : DbError
deriving DecidableEq, Repr

/-- `RateLimitMiddleware._check_rate_limit`, as a function of the limit and
of the outcome of the window query (`none`: no record for the current
minute; `some c`: a record with `command_count = c`; `Except.error`: the
session raised). Returns the allow/deny verdict and the stored count after
the call (`none` when the transaction failed). -/
def dbCheckRateLimit (limit : ℕ) (q : Except DbError (Option ℕ)) : Bool × Option ℕ :=
  match q with
  | .error _ => (true, none)
  | .ok (some c) => if limit ≤ c then (false, some c) else (true, some (c + 1))
  | .ok none => (true, some 1)

/-- `RateLimitMiddleware.__call__` for an event carrying a user, as a
function of the outcome of the rate-limit check (`Except.error` when the
check itself raised): returns whether the handler is invoked. -/
def rateLimitMiddlewareCall (check : Except DbError Bool) : Bool :=
  match check with
  | .ok allowed => allowed
  | .error _ => true

/-- C10 (fail-open of the persisted rate limiter): whenever the
database-backed check raises, `_check_rate_limit` returns allowed, and even
a check that raises out of `_check_rate_limit` is treated as allowed by
`__call__`, so a persistence failure never causes a denial by itself;
a denial requires an intact record at or over the limit. -/
theorem C10_fail_open (limit : ℕ) (e e2 : DbError) :
    (dbCheckRateLimit limit (.error e)).1 = true ∧
    rateLimitMiddlewareCall (.error e2) = true ∧
    (∀ q : Except DbError (Option ℕ), (dbCheckRateLimit limit q).1 = false →
      ∃ c, q = .ok (some c) ∧ limit ≤ c) := by
  refine ⟨rfl, rfl, ?_⟩
  intro q hq
  match q with
  | .error e3 => simp [dbCheckRateLimit] at hq
  | .ok none => simp [dbCheckRateLimit] at hq
  | .ok (some c) =>
    refine ⟨c, rfl, ?_⟩
    by_contra hc
    simp [dbCheckRateLimit, if_neg hc] at hq

/-- Witness for the amended C9 at the unexpected-error kind: one error
completion event, no propagation, exactly one attempted message, outcome
unchanged when the message send fails. -/
theorem C9_witness :
    (loggingMiddlewareCall (α := ℕ) (.error .unexpected)).1 = .error .unexpected ∧
    (loggingMiddlewareCall (α := ℕ) (.error .unexpected)).2.count
      (.completed .error) = 1 ∧
    (loggingMiddlewareCall (α := ℕ) (.error .unexpected)).2.count
      (.completed .success) = 0 ∧
    (∀ f : Bool, (globalErrorHandlerCall (α := ℕ) (.error .unexpected) f).1 = none) ∧
    (∀ f : Bool, (globalErrorHandlerCall (α := ℕ) (.error .unexpected) f).2 =
      if AppError.unexpected = .tgUnauthorized ∨ AppError.unexpected = .tgForbidden
        then 0 else 1) ∧
    (∀ f : Bool, globalErrorHandlerCall (α := ℕ) (.error .unexpected) f =
      globalErrorHandlerCall (α := ℕ) (.error .unexpected) true) :=
  C9_error_isolation_amended .unexpected

/-- Witness for C10 at concrete persistence failures and limit 10. -/
theorem C10_witness :
    (dbCheckRateLimit 10 (.error .sessionFailure)).1 = true ∧
    rateLimitMiddlewareCall (.error .queryError) = true ∧
    (∀ q : Except DbError (Option ℕ), (dbCheckRateLimit 10 q).1 = false →
      ∃ c, q = .ok (some c) ∧ 10 ≤ c) :=
  C10_fail_open 10 .sessionFailure .queryError
